import Mathlib

/-!
Shallow embedding of the manual-MLP engine (MLP_manual.py):
layers (LinearLayer, Tanh), the SoftmaxCrossEntropy loss head, the MLP
composition with its combined forward/backward/update step, and the
mini-batch training loop.

Matrices embed numpy 2-d float arrays: explicit row/column counts plus an
entry function; shape agreement is carried in theorem hypotheses rather
than dependent types.  Python exceptions are embedded as `Except Err`.
Methods that may assign attributes of `self` are embedded as functions
returning the updated state alongside their result.
-/

open scoped BigOperators

/-- A dense rank-2 numeric array: row count, column count, entries. -/
structure Mat where
  rows : ℕ
  cols : ℕ
  entry : ℕ → ℕ → ℝ

namespace Mat

/-- np.dot / np.matmul for 2-d arrays. -/
noncomputable def matMul (A B : Mat) : Mat :=
  ⟨A.rows, B.cols, fun i j => ∑ k ∈ Finset.range A.cols, A.entry i k * B.entry k j⟩

/-- Transpose, `.T` in numpy. -/
def transpose (A : Mat) : Mat :=
  ⟨A.cols, A.rows, fun i j => A.entry j i⟩

/-- np.sum(·, axis=0, keepdims=True): column sums, shape (1, cols). -/
noncomputable def colSum (A : Mat) : Mat :=
  ⟨1, A.cols, fun _ j => ∑ i ∈ Finset.range A.rows, A.entry i j⟩

/-- Adding a (1, cols) row vector to every row (numpy broadcast of the bias). -/
def addRow (A b : Mat) : Mat :=
  ⟨A.rows, A.cols, fun i j => A.entry i j + b.entry 0 j⟩

/-- Elementwise combination of same-shape arrays (numpy elementwise op). -/
def map2 (f : ℝ → ℝ → ℝ) (A B : Mat) : Mat :=
  ⟨A.rows, A.cols, fun i j => f (A.entry i j) (B.entry i j)⟩

/-- Elementwise map (numpy ufunc on one array). -/
def map1 (f : ℝ → ℝ) (A : Mat) : Mat :=
  ⟨A.rows, A.cols, fun i j => f (A.entry i j)⟩

/-- SGD write-back `w - g * lr` (the in-place `w -= gw * lr`). -/
noncomputable def sgdStep (w g : Mat) (lr : ℝ) : Mat :=
  map2 (fun a b => a - b * lr) w g

/-- All-zero matrix. -/
def zeros (r c : ℕ) : Mat := ⟨r, c, fun _ _ => 0⟩

/-- Row selection by an index list (numpy fancy indexing `inputs[batch_idx]`). -/
def selectRows (A : Mat) (idx : List ℕ) : Mat :=
  ⟨idx.length, A.cols, fun i j => A.entry (idx.getD i 0) j⟩

end Mat

/-- Python exceptions the engine can raise. -/
inductive Err where
  /-- RuntimeError("No input to back-propagate through") from LinearLayer.backward. -/
  | noCachedInput
  /-- TypeError from `np.tanh(None)` when Tanh.backward runs with no cached input. -/
  | typeError
  /-- IndexError from out-of-bounds numpy fancy indexing in the loss head. -/
  | indexError
  deriving DecidableEq

/-- LinearLayer state: sizes, parameters, cached input, training flag. -/
structure LinState where
  inputSize : ℕ
  outputSize : ℕ
  weights : Mat
  bias : Mat
  lastInput : Option Mat
  training : Bool

namespace LinState

/-- LinearLayer.__init__ : weights = randn(n, p) * sqrt(2 / n), bias = zeros((1, p)),
last_input = None, training = False.  `rnd` stands for the draw of np.random.randn. -/
noncomputable def init (rnd : ℕ → ℕ → ℝ) (n p : ℕ) : LinState :=
  { inputSize := n
    outputSize := p
    weights := ⟨n, p, fun i j => rnd i j * Real.sqrt (2 / (n : ℝ))⟩
    bias := Mat.zeros 1 p
    lastInput := none
    training := false }

/-- LinearLayer.forward: cache x iff training, return x·W + b. -/
noncomputable def forward (st : LinState) (x : Mat) : LinState × Mat :=
  (if st.training then { st with lastInput := some x } else st,
   Mat.addRow (Mat.matMul x st.weights) st.bias)

/-- LinearLayer.backward: raise if last_input is None, else return
(grad_x, weights, grad_weights, bias, grad_bias); no attribute of self changes. -/
noncomputable def backward (st : LinState) (grad_y : Mat) :
    Except Err (LinState × (Mat × Mat × Mat × Mat × Mat)) :=
  match st.lastInput with
  | none => .error .noCachedInput
  | some x =>
      .ok (st, (Mat.matMul grad_y st.weights.transpose, st.weights,
                Mat.matMul x.transpose grad_y, st.bias, Mat.colSum grad_y))

/-- LinearLayer.train: set training flag. -/
def trainMode (st : LinState) : LinState := { st with training := true }

/-- LinearLayer.eval: clear training flag (nothing else). -/
def evalMode (st : LinState) : LinState := { st with training := false }

end LinState

/-- Tanh layer state: cached input and training flag. -/
structure TanhState where
  lastInput : Option Mat
  isTraining : Bool

namespace TanhState

/-- Tanh.__init__. -/
def init : TanhState := { lastInput := none, isTraining := false }

/-- Tanh.forward: cache x iff training, return tanh(x) elementwise. -/
noncomputable def forward (st : TanhState) (x : Mat) : TanhState × Mat :=
  (if st.isTraining then { st with lastInput := some x } else st,
   Mat.map1 Real.tanh x)

/-- Tanh.backward: no precondition check; `np.tanh(self.last_input)` with a None
cache raises a TypeError, otherwise returns ((1 - tanh(last_input)^2) * grad_y,
None, None, None, None); no attribute of self changes. -/
noncomputable def backward (st : TanhState) (grad_y : Mat) :
    Except Err (TanhState × Mat) :=
  match st.lastInput with
  | none => .error .typeError
  | some x =>
      .ok (st, Mat.map2 (fun a b => (1 - Real.tanh a ^ 2) * b) x grad_y)

/-- Tanh.train. -/
def trainMode (st : TanhState) : TanhState := { st with isTraining := true }

/-- Tanh.eval. -/
def evalMode (st : TanhState) : TanhState := { st with isTraining := false }

end TanhState

/-- np.max(scores, axis=1) on row i.  For a row with at least one column this
is the row maximum (the fold seed duplicates column 0, which is harmless);
numpy rejects an empty axis, so theorems assume `0 < cols`. -/
noncomputable def rowMax (s : Mat) (i : ℕ) : ℝ :=
  ((List.range s.cols).map fun j => s.entry i j).foldr max (s.entry i 0)

/-- The two softmax lines of SoftmaxCrossEntropy.__call__ :
exponentials of max-shifted scores, each divided by its row sum. -/
noncomputable def softmaxProbs (s : Mat) : Mat :=
  ⟨s.rows, s.cols, fun i j =>
    Real.exp (s.entry i j - rowMax s i) /
      ∑ k ∈ Finset.range s.cols, Real.exp (s.entry i k - rowMax s i)⟩

/-- SoftmaxCrossEntropy.__call__ .  `bs` embeds the module-global name
`batch_size` that the method body reads (it is NOT derived from the shape of
`scores`).  The fancy indexing `scores[np.arange(batch_size), labels]` (and the
matching one-hot write) is in bounds exactly when the label vector length
matches `batch_size` (labels always come from the current batch here, never as
a broadcastable length-1 array), the row indices `0..batch_size-1` all exist,
and every label is a valid column; otherwise numpy raises an IndexError. -/
noncomputable def sceCall (bs : ℕ) (scores : Mat) (labels : List ℕ) :
    Except Err (ℝ × Mat) :=
  let p := softmaxProbs scores
  if labels.length = bs ∧ bs ≤ scores.rows ∧ ∀ l ∈ labels, l < scores.cols then
    let positive := (List.range bs).map fun i => p.entry i (labels.getD i 0)
    let loss := (positive.map fun q => -Real.log q).sum / (bs : ℝ)
    let oneHot : Mat := ⟨scores.rows, scores.cols,
      fun i j => if i < bs ∧ labels.getD i 0 = j then 1 else 0⟩
    .ok (loss, ⟨scores.rows, scores.cols,
      fun i j => (p.entry i j - oneHot.entry i j) / (bs : ℝ)⟩)
  else .error .indexError

/-- A layer of the MLP's layer list: a LinearLayer or a Tanh. -/
inductive Layer where
  | lin (st : LinState)
  | act (st : TanhState)

namespace Layer

/-- Dynamic dispatch of layer.forward. -/
noncomputable def forward : Layer → Mat → Layer × Mat
  | .lin st, x => let r := st.forward x; (.lin r.1, r.2)
  | .act st, x => let r := st.forward x; (.act r.1, r.2)

/-- Dynamic dispatch of layer.backward, flattening the 5-tuple into the
input gradient plus the optional (weights, grad_weights, bias, grad_bias)
block that MLP.backward collects when `weights is not None`. -/
noncomputable def backward : Layer → Mat →
    Except Err (Layer × (Mat × Option (Mat × Mat × Mat × Mat)))
  | .lin st, g => do
      let r ← st.backward g
      .ok (.lin r.1, (r.2.1, some (r.2.2.1, r.2.2.2.1, r.2.2.2.2.1, r.2.2.2.2.2)))
  | .act st, g => do
      let r ← st.backward g
      .ok (.act r.1, (r.2, none))

/-- layer.train dispatch. -/
def trainMode : Layer → Layer
  | .lin st => .lin st.trainMode
  | .act st => .act st.trainMode

/-- layer.eval dispatch. -/
def evalMode : Layer → Layer
  | .lin st => .lin st.evalMode
  | .act st => .act st.evalMode

end Layer

/-- The MLP: the ordered layer list (the loss head object is stateless). -/
structure MLPState where
  layers : List Layer

/-- The hard-coded `self.layer_size = [10, 10, 8, 8, 4]` of MLP.__init__ . -/
def mlpLayerSize : List ℕ := [10, 10, 8, 8, 4]

/-- The layer-construction loop of MLP.__init__, in recursive form: for each
adjacent pair (n, p) of the size chain append LinearLayer(n, p), followed by a
Tanh unless this is the last pair.  `rnd k` stands for the np.random.randn
draw used by the k-th LinearLayer. -/
noncomputable def buildLayers (rnd : ℕ → ℕ → ℕ → ℝ) : ℕ → List ℕ → List Layer
  | k, n :: p :: rest =>
      Layer.lin (LinState.init (rnd k) n p) ::
        ((if rest.isEmpty then [] else [Layer.act TanhState.init]) ++
          buildLayers rnd (k + 1) (p :: rest))
  | _, _ => []

namespace MLPState

/-- MLP.__init__ with the hard-coded size chain. -/
noncomputable def init (rnd : ℕ → ℕ → ℕ → ℝ) : MLPState :=
  ⟨buildLayers rnd 0 mlpLayerSize⟩

end MLPState

/-- MLP.forward: thread x through every layer in order (layers may cache
their inputs as a side effect, so the updated layer list is returned too). -/
noncomputable def forwardLayers : List Layer → Mat → List Layer × Mat
  | [], x => ([], x)
  | l :: ls, x =>
      let r := l.forward x
      let rest := forwardLayers ls r.2
      (r.1 :: rest.1, rest.2)

namespace MLPState

/-- MLP.forward. -/
noncomputable def forward (st : MLPState) (x : Mat) : MLPState × Mat :=
  let r := forwardLayers st.layers x
  (⟨r.1⟩, r.2)

/-- MLP.train. -/
def trainMode (st : MLPState) : MLPState := ⟨st.layers.map Layer.trainMode⟩

/-- MLP.eval. -/
def evalMode (st : MLPState) : MLPState := ⟨st.layers.map Layer.evalMode⟩

end MLPState

/-- The gradient-collection loop `for l in reversed(self.layers)` of
MLP.backward: layers run from last to first, each consuming the running
gradient; each visited layer's (possibly updated) state is kept alongside the
parameter-gradient block it reported.  The result lists are in layer order.
No parameter is written here: the update loop runs afterwards. -/
noncomputable def sweep : List Layer → Mat →
    Except Err (Mat × List (Layer × Option (Mat × Mat × Mat × Mat)))
  | [], g => .ok (g, [])
  | l :: ls, g => do
      let r ← sweep ls g
      let b ← l.backward r.1
      .ok (b.2.1, (b.1, b.2.2) :: r.2)

/-- The update loop `for w, gw, b, gb in zip(...): w -= gw * lr; b -= gb * lr`
of MLP.backward.  The collected `w`/`b` entries are the live parameter arrays
of the corresponding LinearLayer, so writing through them updates that
layer's parameters in place. -/
noncomputable def applyUpd (lr : ℝ) :
    Layer × Option (Mat × Mat × Mat × Mat) → Layer
  | (.lin st, some (w, gw, b, gb)) =>
      .lin { st with weights := Mat.sgdStep w gw lr, bias := Mat.sgdStep b gb lr }
  | (l, _) => l

namespace MLPState

/-- MLP.backward, the combined train step: forward pass, loss head (which
reads the module-global batch_size, embedded as `bs`), reverse gradient
sweep, then the in-place SGD updates once the sweep has completed. -/
noncomputable def backward (bs : ℕ) (st : MLPState) (input : Mat)
    (label : List ℕ) (lr : ℝ) : Except Err (ℝ × MLPState) := do
  let f := st.forward input
  let lg ← sceCall bs f.2 label
  let s ← sweep f.1.layers lg.2
  .ok (lg.1, ⟨s.2.map (applyUpd lr)⟩)

end MLPState

/-- np.argmax(A, axis=1) on row i: index of the first maximal entry. -/
noncomputable def rowArgmax (A : Mat) (i : ℕ) : ℕ :=
  (List.range A.cols).foldl
    (fun best j => if A.entry i j > A.entry i best then j else best) 0

/-- The batch slices `shuffle_idx[start_idx:end_idx]` taken by the while loop
of `train`: contiguous chunks of size `B`, the last one short when `B` does
not divide the list length.  (For `B = 0` the Python loop never advances;
the training-loop theorems take `0 < B`.) -/
def chunksF (B : ℕ) : ℕ → List ℕ → List (List ℕ)
  | 0, _ => []
  | _, [] => []
  | fuel + 1, i :: rest => (i :: rest).take B :: chunksF B fuel (rest.drop (B - 1))

/-- Entry point of the slicing loop: each iteration consumes at least one
element (for `0 < B`), so the list length bounds the iteration count. -/
def chunks (B : ℕ) (l : List ℕ) : List (List ℕ) := chunksF B l.length l

/-- The per-batch body of the while loop of `train`: select the batch rows
and labels, run MLP.backward, and keep the returned scalar loss.  The losses
come back one per completed step (the running-average telemetry every
LOSS_STEP steps is print-side aggregation of this list). -/
noncomputable def runBatches (bs : ℕ) (lr : ℝ) (inputs : Mat) (labels : List ℕ) :
    MLPState → List (List ℕ) → Except Err (MLPState × List ℝ)
  | mlp, [] => .ok (mlp, [])
  | mlp, bidx :: rest => do
      let r ← MLPState.backward bs mlp (Mat.selectRows inputs bidx)
        (bidx.map (labels.getD · 0)) lr
      let t ← runBatches bs lr inputs labels r.2 rest
      .ok (t.1, r.1 :: t.2)

/-- One epoch of `train`: switch the net to training mode, convert the
one-hot label matrix to class ids by row argmax, slice the shuffled index
list (`perm` stands for the np.random.permutation draw) into contiguous
batches, and run MLP.backward on every one of them. -/
noncomputable def trainOneEpoch (bs : ℕ) (lr : ℝ) (inputs : Mat) (oneHot : Mat)
    (batchSize : ℕ) (perm : List ℕ) (mlp : MLPState) :
    Except Err (MLPState × List ℝ) :=
  runBatches bs lr inputs ((List.range inputs.rows).map (rowArgmax oneHot))
    mlp.trainMode (chunks batchSize perm)

/-- The parameters a layer owns: the weight/bias pair for a LinearLayer,
nothing for a Tanh. -/
def paramsOf (ls : List Layer) : List (Option (Mat × Mat)) :=
  ls.map fun l => match l with
    | .lin st => some (st.weights, st.bias)
    | .act _ => none

/-- Calls a client may interleave on one layer between a training forward and
backward: an eval() call or a forward(x) call (run in whatever mode the layer
is in at that point). -/
inductive LayerOp where
  | evalCall
  | forwardCall (x : Mat)

/-- Run a call sequence against a LinearLayer. -/
noncomputable def linApplyOps : LinState → List LayerOp → LinState
  | st, [] => st
  | st, .evalCall :: ops => linApplyOps st.evalMode ops
  | st, .forwardCall x :: ops => linApplyOps (st.forward x).1 ops

/-- Run a call sequence against a Tanh layer. -/
noncomputable def tanhApplyOps : TanhState → List LayerOp → TanhState
  | st, [] => st
  | st, .evalCall :: ops => tanhApplyOps st.evalMode ops
  | st, .forwardCall x :: ops => tanhApplyOps (st.forward x).1 ops

/-! Concrete inputs used to instantiate the theorems below. -/

/-- A fixed draw for np.random.randn. -/
noncomputable def rnd0 : ℕ → ℕ → ℕ → ℝ := fun _ _ _ => 0

/-- A freshly constructed MLP (the hard-coded [10, 10, 8, 8, 4] chain). -/
noncomputable def mlp0 : MLPState := MLPState.init rnd0

/-- An 11-sample one-hot label matrix over 4 classes, every sample class 0. -/
noncomputable def oneHot11 : Mat := ⟨11, 4, fun _ j => if j = 0 then 1 else 0⟩

/-- A 2-by-2 upstream gradient. -/
noncomputable def gW : Mat := ⟨2, 2, fun i j => (i : ℝ) + j + 1⟩

/-- A 2-by-2 input batch. -/
noncomputable def xW : Mat := ⟨2, 2, fun i j => (i : ℝ) - j⟩

/-- A 2-to-2 LinearLayer in training mode with a cached input. -/
noncomputable def linW : LinState :=
  ⟨2, 2, ⟨2, 2, fun i j => (i : ℝ) * 2 + j⟩, ⟨1, 2, fun _ j => (j : ℝ)⟩, some xW, true⟩

/-- A freshly constructed LinearLayer (no cached input). -/
noncomputable def linFresh : LinState := LinState.init (fun _ _ => 0) 2 2

/-- A Tanh layer with a cached input. -/
noncomputable def tanhW : TanhState := ⟨some xW, true⟩

/-- The result of LinearLayer.backward on the concrete cached layer. -/
noncomputable def linBackRes : LinState × (Mat × Mat × Mat × Mat × Mat) :=
  (LinState.backward linW gW).toOption.getD
    (linW, (gW, gW, gW, gW, gW))

/-- The result of Tanh.backward on the concrete cached layer. -/
noncomputable def tanhBackRes : TanhState × Mat :=
  (TanhState.backward tanhW gW).toOption.getD (tanhW, gW)

/-- A single-LinearLayer MLP in training mode (for the train-step theorems). -/
noncomputable def mlpW : MLPState := ⟨[Layer.lin { linW with lastInput := none }]⟩

/-- The forward pass of the single-layer MLP on the concrete batch. -/
noncomputable def mlpFwRes : MLPState × Mat := MLPState.forward mlpW xW

/-- The loss-head result on the concrete forward output (global batch_size 2). -/
noncomputable def lgRes : ℝ × Mat :=
  (sceCall 2 mlpFwRes.2 [0, 1]).toOption.getD (0, Mat.zeros 1 1)

/-- The gradient sweep over the post-forward layers. -/
noncomputable def swRes : Mat × List (Layer × Option (Mat × Mat × Mat × Mat)) :=
  (sweep mlpFwRes.1.layers lgRes.2).toOption.getD (Mat.zeros 1 1, [])

/-- The complete train step on the single-layer MLP. -/
noncomputable def bwRes : ℝ × MLPState :=
  (MLPState.backward 2 mlpW xW [0, 1] 1).toOption.getD (0, mlpW)

/-- A 1-by-1 score matrix. -/
noncomputable def sW : Mat := ⟨1, 1, fun _ _ => 0⟩

/-- The loss-head result on the 1-by-1 score matrix with batch size 1. -/
noncomputable def sceRes : ℝ × Mat :=
  (sceCall 1 sW [0]).toOption.getD (0, Mat.zeros 1 1)

/-- A concrete call sequence: eval, then a forward run in eval mode, then eval. -/
noncomputable def opsW : List LayerOp :=
  [LayerOp.evalCall, LayerOp.forwardCall gW, LayerOp.evalCall]

/-! Helper lemmas. -/

theorem exceptBind_ok {α β : Type} (a : α) (f : α → Except Err β) :
    (Except.ok a >>= f) = f a := rfl

theorem exceptBind_error {α β : Type} (e : Err) (f : α → Except Err β) :
    ((Except.error e : Except Err α) >>= f) = Except.error e := rfl

theorem lin_backward_state (st : LinState) (g : Mat)
    (r : LinState × (Mat × Mat × Mat × Mat × Mat))
    (h : st.backward g = Except.ok r) : r.1 = st := by
  cases hc : st.lastInput with
  | none => simp [LinState.backward, hc] at h
  | some x =>
      simp only [LinState.backward, hc, Except.ok.injEq] at h
      rw [← h]

theorem tanh_backward_state (st : TanhState) (g : Mat) (r : TanhState × Mat)
    (h : st.backward g = Except.ok r) : r.1 = st := by
  cases hc : st.lastInput with
  | none => simp [TanhState.backward, hc] at h
  | some x =>
      simp only [TanhState.backward, hc, Except.ok.injEq] at h
      rw [← h]

theorem layer_backward_state (l : Layer) (g : Mat)
    (b : Layer × (Mat × Option (Mat × Mat × Mat × Mat)))
    (h : l.backward g = Except.ok b) : b.1 = l := by
  cases l with
  | lin st =>
      cases hr : st.backward g with
      | error e => simp [Layer.backward, hr, exceptBind_error] at h
      | ok r =>
          simp only [Layer.backward, hr, exceptBind_ok, Except.ok.injEq] at h
          rw [← h]
          simp [lin_backward_state st g r hr]
  | act st =>
      cases hr : st.backward g with
      | error e => simp [Layer.backward, hr, exceptBind_error] at h
      | ok r =>
          simp only [Layer.backward, hr, exceptBind_ok, Except.ok.injEq] at h
          rw [← h]
          simp [tanh_backward_state st g r hr]

theorem sweep_states (ls : List Layer) (g : Mat)
    (r : Mat × List (Layer × Option (Mat × Mat × Mat × Mat)))
    (h : sweep ls g = Except.ok r) : r.2.map Prod.fst = ls := by
  induction ls generalizing g r with
  | nil =>
      simp only [sweep, Except.ok.injEq] at h
      rw [← h]
      rfl
  | cons l ls ih =>
      cases hr : sweep ls g with
      | error e => simp [sweep, hr, exceptBind_error] at h
      | ok r1 =>
          cases hb : l.backward r1.1 with
          | error e => simp [sweep, hr, hb, exceptBind_ok, exceptBind_error] at h
          | ok b =>
              simp only [sweep, hr, exceptBind_ok, hb, Except.ok.injEq] at h
              rw [← h]
              simp [layer_backward_state l r1.1 b hb, ih g r1 hr]

theorem layer_forward_param (l : Layer) (x : Mat) :
    (match (l.forward x).1 with
      | .lin st => some (st.weights, st.bias)
      | .act _ => none) =
    (match l with
      | .lin st => some (st.weights, st.bias)
      | .act _ => none) := by
  cases l with
  | lin st =>
      simp only [Layer.forward, LinState.forward]
      split <;> rfl
  | act st =>
      simp only [Layer.forward, TanhState.forward]

theorem forward_params (ls : List Layer) (x : Mat) :
    paramsOf (forwardLayers ls x).1 = paramsOf ls := by
  induction ls generalizing x with
  | nil => rfl
  | cons l ls ih =>
      simp only [forwardLayers, paramsOf, List.map_cons, List.cons.injEq]
      exact ⟨layer_forward_param l x, ih (l.forward x).2⟩

theorem lin_evalMode_self (st : LinState) (h : st.training = false) :
    st.evalMode = st := by
  cases st
  simp only [LinState.evalMode]
  simp_all

theorem tanh_evalMode_self (st : TanhState) (h : st.isTraining = false) :
    st.evalMode = st := by
  cases st
  simp only [TanhState.evalMode]
  simp_all

theorem linApplyOps_fixed (ops : List LayerOp) (st : LinState)
    (h : st.training = false) : linApplyOps st ops = st := by
  induction ops generalizing st with
  | nil => rfl
  | cons op ops ih =>
      cases op with
      | evalCall => rw [linApplyOps, lin_evalMode_self st h, ih st h]
      | forwardCall x =>
          rw [linApplyOps]
          have hf : (st.forward x).1 = st := by simp [LinState.forward, h]
          rw [hf, ih st h]

theorem tanhApplyOps_fixed (ops : List LayerOp) (st : TanhState)
    (h : st.isTraining = false) : tanhApplyOps st ops = st := by
  induction ops generalizing st with
  | nil => rfl
  | cons op ops ih =>
      cases op with
      | evalCall => rw [tanhApplyOps, tanh_evalMode_self st h, ih st h]
      | forwardCall x =>
          rw [tanhApplyOps]
          have hf : (st.forward x).1 = st := by simp [TanhState.forward, h]
          rw [hf, ih st h]

/-! Claim theorems. -/

/-- C1: the loss head does NOT divide by the actual row count of its scores
argument: it reads the module-global batch_size.  On a single-row batch with
the global set to 10 (the value the script runs with), the fancy indexing
walks rows 0..9 of a 1-row array and the call raises an IndexError instead
of succeeding with divisor 1. -/
theorem sce_short_batch_index_error :
    sceCall 10 ⟨1, 4, fun _ _ => 0⟩ [0] = Except.error Err.indexError := rfl

/-- C2 (counterexample): a Tanh layer on which backward is called before any
training-mode forward does NOT fail with the "no cached input" precondition
error; it fails with the TypeError coming from np.tanh(None). -/
theorem tanh_no_cache_not_precondition_error :
    ¬ (TanhState.backward TanhState.init (Mat.zeros 1 1) =
        Except.error Err.noCachedInput) := by
  simp [TanhState.backward, TanhState.init]

/-- C2 (amended): with no cached input, LinearLayer.backward fails with the
"no cached input" precondition error, while Tanh.backward performs no such
check and fails differently, with the type error from applying np.tanh to
the absent (None) cache. -/
theorem backward_no_cache_error_modes :
    (∀ (st : LinState) (g : Mat), st.lastInput = none →
        st.backward g = Except.error Err.noCachedInput) ∧
    (∀ (st : TanhState) (g : Mat), st.lastInput = none →
        st.backward g = Except.error Err.typeError ∧
          Err.typeError ≠ Err.noCachedInput) := by
  refine ⟨fun st g h => ?_, fun st g h => ⟨?_, by decide⟩⟩
  · simp [LinState.backward, h]
  · simp [TanhState.backward, h]

/-- C2 (witness): the amended claim at a fresh LinearLayer and a fresh Tanh. -/
theorem backward_no_cache_error_modes_witness :
    linFresh.lastInput = none ∧
    LinState.backward linFresh gW = Except.error Err.noCachedInput ∧
    TanhState.backward TanhState.init gW = Except.error Err.typeError := by
  refine ⟨rfl, backward_no_cache_error_modes.1 linFresh gW rfl, ?_⟩
  exact (backward_no_cache_error_modes.2 TanhState.init gW rfl).1

/-- C5: LinearLayer.backward with cached input x of shape [batch, input_size]
and upstream gradient of shape [batch, output_size] returns the 5-tuple
(grad_x, W, grad_weights, b, grad_bias) with grad_bias the column sum of
grad_y (shape [1, output_size]), grad_weights = x^T grad_y (shape
[input_size, output_size]) and grad_x = grad_y W^T (shape [batch, input_size]). -/
theorem linear_backward_formulas (st : LinState) (x grad_y : Mat) (batch : ℕ)
    (hcache : st.lastInput = some x)
    (hxr : x.rows = batch) (hxc : x.cols = st.inputSize)
    (hgr : grad_y.rows = batch) (hgc : grad_y.cols = st.outputSize)
    (hwr : st.weights.rows = st.inputSize) (hwc : st.weights.cols = st.outputSize) :
    ∃ gx gw gb,
      st.backward grad_y =
        Except.ok (st, (gx, st.weights, gw, st.bias, gb)) ∧
      (gb.rows = 1 ∧ gb.cols = st.outputSize ∧
        ∀ j, gb.entry 0 j = ∑ i ∈ Finset.range batch, grad_y.entry i j) ∧
      (gw.rows = st.inputSize ∧ gw.cols = st.outputSize ∧
        ∀ i j, gw.entry i j = ∑ b ∈ Finset.range batch, x.entry b i * grad_y.entry b j) ∧
      (gx.rows = batch ∧ gx.cols = st.inputSize ∧
        ∀ i j, gx.entry i j =
          ∑ k ∈ Finset.range st.outputSize, grad_y.entry i k * st.weights.entry j k) := by
  refine ⟨Mat.matMul grad_y st.weights.transpose, Mat.matMul x.transpose grad_y,
    Mat.colSum grad_y, by simp only [LinState.backward, hcache], ?_, ?_, ?_⟩
  · exact ⟨rfl, hgc, fun j => by simp [Mat.colSum, hgr]⟩
  · exact ⟨by simp [Mat.matMul, Mat.transpose, hxc], by simp [Mat.matMul, hgc],
      fun i j => by simp [Mat.matMul, Mat.transpose, hxr]⟩
  · exact ⟨by simp [Mat.matMul, hgr], by simp [Mat.matMul, Mat.transpose, hwr],
      fun i j => by simp [Mat.matMul, Mat.transpose, hgc]⟩

/-- C5 (witness): the backward formulas at a concrete 2-sample batch on a
concrete 2-to-2 LinearLayer. -/
theorem linear_backward_formulas_witness :
    linW.lastInput = some xW ∧
    ∃ gx gw gb,
      LinState.backward linW gW =
        Except.ok (linW, (gx, linW.weights, gw, linW.bias, gb)) ∧
      (gb.rows = 1 ∧ gb.cols = linW.outputSize ∧
        ∀ j, gb.entry 0 j = ∑ i ∈ Finset.range 2, gW.entry i j) ∧
      (gw.rows = linW.inputSize ∧ gw.cols = linW.outputSize ∧
        ∀ i j, gw.entry i j = ∑ b ∈ Finset.range 2, xW.entry b i * gW.entry b j) ∧
      (gx.rows = 2 ∧ gx.cols = linW.inputSize ∧
        ∀ i j, gx.entry i j =
          ∑ k ∈ Finset.range linW.outputSize, gW.entry i k * linW.weights.entry j k) :=
  ⟨rfl, linear_backward_formulas linW xW gW 2 rfl rfl rfl rfl rfl rfl rfl⟩

/-- C7: each row of the probabilities produced by the softmax step of the
loss head (exponentials of max-shifted scores divided by the row sum) sums
to 1, for any scores matrix with at least one column. -/
theorem softmax_rows_sum_one (s : Mat) (h : 0 < s.cols) (i : ℕ) :
    ∑ j ∈ Finset.range s.cols, (softmaxProbs s).entry i j = 1 := by
  have hpos : 0 < ∑ k ∈ Finset.range s.cols, Real.exp (s.entry i k - rowMax s i) :=
    Finset.sum_pos (fun k _ => Real.exp_pos _)
      (Finset.nonempty_range_iff.mpr h.ne')
  simp only [softmaxProbs]
  rw [← Finset.sum_div, div_self hpos.ne']

/-- C7 (witness): row normalization at a concrete 1-by-1 score matrix. -/
theorem softmax_rows_sum_one_witness :
    0 < sW.cols ∧ ∑ j ∈ Finset.range sW.cols, (softmaxProbs sW).entry 0 j = 1 :=
  ⟨by decide, softmax_rows_sum_one sW (by decide) 0⟩

/-- C9: backward never mutates layer state: LinearLayer.backward and
Tanh.backward return their state unchanged (weights, bias, cached input and
training flag included), the whole gradient sweep of MLP.backward passes
every layer state through untouched, and the only writes to weights and bias
happen in the separate update phase (which touches nothing else: a Tanh
layer is left alone and a LinearLayer changes at most weights and bias). -/
theorem backward_frame :
    (∀ (st : LinState) (g : Mat) (r : LinState × (Mat × Mat × Mat × Mat × Mat)),
        st.backward g = Except.ok r → r.1 = st) ∧
    (∀ (st : TanhState) (g : Mat) (r : TanhState × Mat),
        st.backward g = Except.ok r → r.1 = st) ∧
    (∀ (ls : List Layer) (g : Mat)
        (r : Mat × List (Layer × Option (Mat × Mat × Mat × Mat))),
        sweep ls g = Except.ok r → r.2.map Prod.fst = ls) ∧
    (∀ (lr : ℝ) (st : TanhState) (og : Option (Mat × Mat × Mat × Mat)),
        applyUpd lr (Layer.act st, og) = Layer.act st) ∧
    (∀ (lr : ℝ) (st : LinState) (og : Option (Mat × Mat × Mat × Mat)),
        ∃ w b, applyUpd lr (Layer.lin st, og) =
          Layer.lin { st with weights := w, bias := b }) := by
  refine ⟨lin_backward_state, tanh_backward_state, sweep_states, ?_, ?_⟩
  · intro lr st og
    cases og with
    | none => rfl
    | some q => rfl
  · intro lr st og
    cases og with
    | none => exact ⟨st.weights, st.bias, rfl⟩
    | some q =>
        obtain ⟨w, gw, b, gb⟩ := q
        exact ⟨Mat.sgdStep w gw lr, Mat.sgdStep b gb lr, rfl⟩

/-- C9 (witness): the frame facts at concrete layers, a concrete sweep and a
concrete update. -/
theorem backward_frame_witness :
    linBackRes.1 = linW ∧ tanhBackRes.1 = tanhW ∧
    swRes.2.map Prod.fst = mlpFwRes.1.layers ∧
    applyUpd 1 (Layer.act tanhW, none) = Layer.act tanhW :=
  ⟨backward_frame.1 linW gW linBackRes rfl,
   backward_frame.2.1 tanhW gW tanhBackRes rfl,
   backward_frame.2.2.1 mlpFwRes.1.layers lgRes.2 swRes rfl,
   backward_frame.2.2.2.1 1 tanhW none⟩

/-- C10: eval() never clears the cached input, a forward call made in eval
mode does not overwrite it, and after any sequence of eval() calls and
forwards run from eval mode, backward still succeeds and is computed from
the most recent training-mode input (and the unchanged parameters). -/
theorem eval_preserves_cache :
    (∀ st : LinState, st.evalMode.lastInput = st.lastInput) ∧
    (∀ st : TanhState, st.evalMode.lastInput = st.lastInput) ∧
    (∀ (st : LinState) (x : Mat), st.training = false → (st.forward x).1 = st) ∧
    (∀ (st : TanhState) (x : Mat), st.isTraining = false → (st.forward x).1 = st) ∧
    (∀ (st : LinState) (ops : List LayerOp) (x g : Mat),
        st.lastInput = some x →
        linApplyOps st.evalMode ops = st.evalMode ∧
        (linApplyOps st.evalMode ops).backward g =
          Except.ok (st.evalMode,
            (Mat.matMul g st.weights.transpose, st.weights,
             Mat.matMul x.transpose g, st.bias, Mat.colSum g))) ∧
    (∀ (st : TanhState) (ops : List LayerOp) (x g : Mat),
        st.lastInput = some x →
        tanhApplyOps st.evalMode ops = st.evalMode ∧
        (tanhApplyOps st.evalMode ops).backward g =
          Except.ok (st.evalMode,
            Mat.map2 (fun a b => (1 - Real.tanh a ^ 2) * b) x g)) := by
  refine ⟨fun st => rfl, fun st => rfl,
    fun st x h => by simp [LinState.forward, h],
    fun st x h => by simp [TanhState.forward, h], ?_, ?_⟩
  · intro st ops x g h
    have hfix := linApplyOps_fixed ops st.evalMode rfl
    refine ⟨hfix, ?_⟩
    rw [hfix]
    simp only [LinState.backward, LinState.evalMode, h]
  · intro st ops x g h
    have hfix := tanhApplyOps_fixed ops st.evalMode rfl
    refine ⟨hfix, ?_⟩
    rw [hfix]
    simp only [TanhState.backward, TanhState.evalMode, h]

/-- C10 (witness): cache preservation and backward success after a concrete
eval / eval-mode-forward / eval sequence on concrete cached layers. -/
theorem eval_preserves_cache_witness :
    linW.lastInput = some xW ∧ tanhW.lastInput = some xW ∧
    (linApplyOps linW.evalMode opsW = linW.evalMode ∧
      (linApplyOps linW.evalMode opsW).backward gW =
        Except.ok (linW.evalMode,
          (Mat.matMul gW linW.weights.transpose, linW.weights,
           Mat.matMul xW.transpose gW, linW.bias, Mat.colSum gW))) ∧
    (tanhApplyOps tanhW.evalMode opsW = tanhW.evalMode ∧
      (tanhApplyOps tanhW.evalMode opsW).backward gW =
        Except.ok (tanhW.evalMode,
          Mat.map2 (fun a b => (1 - Real.tanh a ^ 2) * b) xW gW)) :=
  ⟨rfl, rfl, eval_preserves_cache.2.2.2.2.1 linW opsW xW gW rfl,
   eval_preserves_cache.2.2.2.2.2 tanhW opsW xW gW rfl⟩

/-- C6: forwarding a batch of shape [B, L0] (B at least 1) through the layer
list that MLP.__init__ builds from a size chain starting at L0 yields a
matrix of shape [B, Lk], where Lk is the last width of the chain. -/
theorem mlp_forward_shape (rnd : ℕ → ℕ → ℕ → ℝ) (k n : ℕ) (rest : List ℕ)
    (x : Mat) (hB : 0 < x.rows) (hx : x.cols = n) :
    (forwardLayers (buildLayers rnd k (n :: rest)) x).2.rows = x.rows ∧
    (forwardLayers (buildLayers rnd k (n :: rest)) x).2.cols =
      (n :: rest).getLastD 0 := by
  induction rest generalizing k n x with
  | nil =>
      exact ⟨rfl, hx⟩
  | cons p rest ih =>
      cases rest with
      | nil =>
          simp only [buildLayers, List.isEmpty_nil, if_true, List.nil_append,
            forwardLayers, Layer.forward, LinState.forward, LinState.init]
          exact ⟨rfl, rfl⟩
      | cons q rest2 =>
          have ih2 := ih (k + 1)
            (x := Mat.map1 Real.tanh (Mat.addRow (Mat.matMul x
              ⟨n, p, fun i j => rnd k i j * Real.sqrt (2 / (n : ℝ))⟩)
              (Mat.zeros 1 p)))
            (n := p) (by exact hB) rfl
          simpa [buildLayers, forwardLayers, Layer.forward, LinState.forward,
            TanhState.forward, TanhState.init, LinState.init, Mat.map1]
            using ih2

/-- C6 (witness): the shape invariant on the real constructed network (the
hard-coded [10, 10, 8, 8, 4] chain) with a 3-sample batch: output is 3 by 4. -/
theorem mlp_forward_shape_witness :
    0 < (Mat.zeros 3 10).rows ∧
    (MLPState.forward (MLPState.init rnd0) (Mat.zeros 3 10)).2.rows = 3 ∧
    (MLPState.forward (MLPState.init rnd0) (Mat.zeros 3 10)).2.cols = 4 := by
  have h := mlp_forward_shape rnd0 0 10 [10, 8, 8, 4] (Mat.zeros 3 10)
    (by decide) rfl
  exact ⟨by decide, h.1, h.2⟩

/-- C8: any loss the loss head actually returns (the mean over the indexed
batch of minus the log of the predicted probability of the true class) is
nonnegative. -/
theorem sce_loss_nonneg (bs : ℕ) (s : Mat) (labels : List ℕ) (r : ℝ × Mat)
    (hbs : 0 < bs) (h : sceCall bs s labels = Except.ok r) : 0 ≤ r.1 := by
  unfold sceCall at h
  split at h
  case isFalse => exact absurd h (by simp)
  case isTrue hc =>
    obtain ⟨hlen, hrows, hlab⟩ := hc
    have hr := (Except.ok.inj h).symm
    rw [hr]
    simp only
    apply div_nonneg _ (Nat.cast_nonneg bs)
    apply List.sum_nonneg
    intro a ha
    simp only [List.map_map, List.mem_map, List.mem_range, Function.comp] at ha
    obtain ⟨i, hi, hai⟩ := ha
    rw [← hai]
    have hmem : labels.getD i 0 ∈ labels := by
      have hi2 : i < labels.length := by omega
      rw [List.getD_eq_getElem _ _ hi2]
      exact List.getElem_mem hi2
    have hcol : labels.getD i 0 < s.cols := hlab _ hmem
    have hden : 0 < ∑ k ∈ Finset.range s.cols,
        Real.exp (s.entry i k - rowMax s i) :=
      Finset.sum_pos (fun k _ => Real.exp_pos _)
        (Finset.nonempty_range_iff.mpr (by omega))
    have hnum : (0 : ℝ) < Real.exp (s.entry i (labels.getD i 0) - rowMax s i) :=
      Real.exp_pos _
    have hle : Real.exp (s.entry i (labels.getD i 0) - rowMax s i) ≤
        ∑ k ∈ Finset.range s.cols, Real.exp (s.entry i k - rowMax s i) :=
      Finset.single_le_sum (f := fun k => Real.exp (s.entry i k - rowMax s i))
        (fun k _ => (Real.exp_pos _).le) (Finset.mem_range.mpr hcol)
    have hp1 : (softmaxProbs s).entry i (labels.getD i 0) ≤ 1 := by
      simp only [softmaxProbs]
      exact (div_le_one hden).mpr hle
    have hp0 : 0 < (softmaxProbs s).entry i (labels.getD i 0) := by
      simp only [softmaxProbs]
      exact div_pos hnum hden
    have hlog := Real.log_nonpos hp0.le hp1
    linarith

/-- C8 (witness): the loss returned on a concrete 1-by-1 score matrix with
batch size 1 is nonnegative. -/
theorem sce_loss_nonneg_witness : 0 < 1 ∧ 0 ≤ sceRes.1 :=
  ⟨by decide, sce_loss_nonneg 1 sW [0] sceRes (by decide) rfl⟩

/-- C4: in one train step (MLP.backward) every layer gradient is computed by
the sweep from the post-forward layer states, whose parameters are exactly
the parameters held at entry to the step (the forward pass writes no
parameter); the sweep itself passes every layer state through unchanged, and
the in-place SGD updates are applied only afterwards, to the frozen sweep
results.  So no layer's gradient can see a parameter updated in this step. -/
theorem mlp_backward_update_after_sweep (bs : ℕ) (st : MLPState) (x : Mat)
    (lbl : List ℕ) (lr : ℝ) (out : ℝ × MLPState)
    (h : MLPState.backward bs st x lbl lr = Except.ok out)
    (lg : ℝ × Mat) (hl : sceCall bs (st.forward x).2 lbl = Except.ok lg)
    (sw : Mat × List (Layer × Option (Mat × Mat × Mat × Mat)))
    (hs : sweep (st.forward x).1.layers lg.2 = Except.ok sw) :
    sw.2.map Prod.fst = (st.forward x).1.layers ∧
    paramsOf (st.forward x).1.layers = paramsOf st.layers ∧
    out.2.layers = sw.2.map (applyUpd lr) ∧
    out.1 = lg.1 := by
  refine ⟨sweep_states _ _ _ hs, forward_params st.layers x, ?_, ?_⟩ <;>
  · simp only [MLPState.backward, hl, hs, exceptBind_ok, Except.ok.injEq] at h
    rw [← h]

/-- C4 (witness): the update-ordering decomposition on a concrete one-layer
MLP and a concrete 2-sample batch. -/
theorem mlp_backward_update_after_sweep_witness :
    swRes.2.map Prod.fst = (MLPState.forward mlpW xW).1.layers ∧
    paramsOf (MLPState.forward mlpW xW).1.layers = paramsOf mlpW.layers ∧
    bwRes.2.layers = swRes.2.map (applyUpd 1) ∧
    bwRes.1 = lgRes.1 :=
  mlp_backward_update_after_sweep 2 mlpW xW [0, 1] 1 bwRes rfl lgRes rfl swRes rfl

/-- C3: the training loop does partition each epoch's shuffled indices into
contiguous batches with a short final batch, but the short batch is NOT
processed successfully: because the loss head reads the module-global
batch_size (10) instead of the actual batch row count, the train step on the
final 1-row batch of an 11-sample dataset raises an IndexError, a fatal
error for the epoch. -/
theorem train_epoch_short_batch_fails :
    trainOneEpoch 10 (1 / 100) (Mat.zeros 11 10) oneHot11 10 (List.range 11)
      mlp0 = Except.error Err.indexError := by
  have h : (List.range (Mat.zeros 11 10).rows).map (rowArgmax oneHot11)
      = List.replicate 11 0 := by
    rw [List.eq_replicate_iff]
    constructor
    · simp [Mat.zeros]
    · intro b hb
      simp only [List.mem_map] at hb
      obtain ⟨i, _, hi⟩ := hb
      rw [← hi]
      simp [rowArgmax, oneHot11]
      norm_num [List.range_succ]
  rw [trainOneEpoch, h]
  rfl
